import Mathlib

/-
Verification of the Matrix peer-to-peer transport
(`raiden/network/transport/matrix/transport.py`).

The definitions below are a shallow embedding of the transport code:

* `_RetryQueue.enqueue`            → `enqueue`
* `_RetryQueue._check_and_send`    → `check_and_send` / `check_and_send_entries`
* `_RetryQueue._run` (one tick)    → `run_iteration`
* `MatrixTransport.send_async`     → `send_async`
* `MatrixTransport._handle_sync_messages` (ack synthesis)
                                   → `handle_sync_messages`
* `MatrixTransport._maybe_create_room_for_address` (creation gate)
                                   → `maybe_create_room_for_address`
* `MatrixTransport._is_broadcast_room` → `is_broadcast_room`
* `MatrixTransport._set_room_id_for_address` → `set_room_id_for_address`

External collaborators that are opaque to the transport (the Matrix client,
the message serializer, the backoff generator, the application state
machine) are represented by parameters: e.g. the serialized text of a
message and its expiration generator are inputs to `enqueue`, and the
application's pending-send queues (`transport._queueids_to_queues`) are an
association list parameter of `check_and_send`.
-/

set_option autoImplicit false

namespace RaidenTransport

/-- A node address: the byte string of an Ethereum address
(`raiden.utils.typing.Address`).  Byte values are modelled as `Nat`. -/
abbrev Address := List Nat

/-- `RETRY_QUEUE_IDLE_AFTER` (transport.py line 82): a RetryQueue is
considered idle after this many iterations without a message. -/
def RETRY_QUEUE_IDLE_AFTER : Nat := 10

/-- `CANONICAL_IDENTIFIER_UNORDERED_QUEUE` from
`raiden.transfer.identifiers`, the distinguished canonical identifier used
by `enqueue_unordered`.  Canonical identifiers are modelled as `Nat` with
`0` reserved for the unordered queue. -/
def CANONICAL_IDENTIFIER_UNORDERED_QUEUE : Nat := 0

/-- Application messages, as the transport distinguishes them
(`raiden.messages`): `Delivered`, `Ping` and `Pong` are the
transport-internal ("non-retryable") classes; `signedRetrieable` stands for
any `SignedRetrieableMessage` (which includes `Processed`), carrying a
`message_identifier` and an optional recovered `sender`. -/
inductive Message where
  | delivered (delivered_message_identifier : Nat) (signature : Nat)
  | ping (nonce : Nat)
  | pong (nonce : Nat)
  | signedRetrieable (message_identifier : Nat) (sender : Option Address) (signature : Nat)
deriving DecidableEq, Repr

/-- `QueueIdentifier` from `raiden.transfer.identifiers`:
(recipient address, canonical identifier). -/
structure QueueIdentifier where
  recipient : Address
  canonical_identifier : Nat
deriving DecidableEq, Repr

/-- `isinstance(message, (Delivered, Ping, Pong))`: the check used both by
`send_async` (transport.py line 574) and by `_check_and_send` (line 226). -/
def is_transport_internal : Message → Bool
  | Message.delivered _ _ => true
  | Message.ping _ => true
  | Message.pong _ => true
  | Message.signedRetrieable _ _ _ => false

/-- `isinstance(message, RetrieableMessage)` together with the message
identifier access used by `message_is_in_queue` (transport.py line 212). -/
def retrieable_message_identifier : Message → Option Nat
  | Message.signedRetrieable mid _ _ => some mid
  | _ => none

/-- `message.sender` for signed messages (transport.py line 965). -/
def message_sender : Message → Option Address
  | Message.signedRetrieable _ s _ => s
  | _ => none

/-- The stateful expiration generator built by
`_RetryQueue._expiration_generator` (transport.py lines 111-127).  The
stream of booleans it will yield is `outs`, and `idx` is how many values
have been consumed so far; `next` returns the current value and advances. -/
structure ExpGen where
  outs : Nat → Bool
  idx : Nat

/-- `next(expiration_generator)`: the yielded value plus the advanced
generator. -/
def ExpGen.next (g : ExpGen) : Bool × ExpGen :=
  (g.outs g.idx, ⟨g.outs, g.idx + 1⟩)

/-- `_RetryQueue._MessageData` (transport.py lines 88-95). -/
structure MessageData where
  queue_identifier : QueueIdentifier
  message : Message
  text : String
  expiration_generator : ExpGen

/-- `_RetryQueue.enqueue` (transport.py lines 129-159): O(n) dedup on the
pair (queue_identifier, message); a duplicate is ignored, otherwise the new
`_MessageData` is appended.  The serialized `text` and the fresh
`expiration_generator` are produced by external collaborators
(`MessageSerializer.serialize`, `timeout_exponential_backoff`) and are
therefore parameters here. -/
def enqueue (message_queue : List MessageData) (queue_identifier : QueueIdentifier)
    (message : Message) (text : String) (gen : ExpGen) : List MessageData :=
  let already_queued := message_queue.any fun data =>
    queue_identifier == data.queue_identifier && message == data.message
  if already_queued then
    message_queue
  else
    message_queue ++ [⟨queue_identifier, message, text, gen⟩]

/-- `AddressReachability` from `raiden.network.transport.matrix.utils`. -/
inductive AddressReachability where
  | reachable
  | unreachable
  | unknown
deriving DecidableEq, Repr

/-- `message_is_in_queue` (transport.py lines 207-215): true iff the Raiden
queue for the entry's queue identifier still exists and contains a send
event whose `message_identifier` equals the (retrieable) message's
identifier.  The application's queues (`transport._queueids_to_queues`) are
modelled as an association list from queue identifier to the list of
pending send events' message identifiers. -/
def message_is_in_queue (queueids_to_queues : List (QueueIdentifier × List Nat))
    (message_data : MessageData) : Bool :=
  match queueids_to_queues.lookup message_data.queue_identifier with
  | none => false
  | some send_events =>
    send_events.any fun send_event_mid =>
      match retrieable_message_identifier message_data.message with
      | some mid => send_event_mid == mid
      | none => false

/-- The per-entry loop of `_check_and_send` (transport.py lines 217-247):
returns the entries kept in `_message_queue` afterwards together with the
collected `message_texts`, in iteration order.  A non-retryable entry
(`Delivered`/`Ping`/`Pong`) is collected and removed; a retryable entry no
longer present in the Raiden queue is removed without being collected; a
remaining retryable entry stays, is collected when its expiration generator
yields true, and its generator is advanced by the `next` call. -/
def check_and_send_entries (queueids_to_queues : List (QueueIdentifier × List Nat)) :
    List MessageData → List MessageData × List String
  | [] => ([], [])
  | message_data :: rest =>
    let tailResult := check_and_send_entries queueids_to_queues rest
    if is_transport_internal message_data.message then
      (tailResult.1, message_data.text :: tailResult.2)
    else if message_is_in_queue queueids_to_queues message_data then
      let r := message_data.expiration_generator.next
      let advanced : MessageData :=
        ⟨message_data.queue_identifier, message_data.message, message_data.text, r.2⟩
      if r.1 then
        (advanced :: tailResult.1, message_data.text :: tailResult.2)
      else
        (advanced :: tailResult.1, tailResult.2)
    else
      (tailResult.1, tailResult.2)

/-- Modelled from the spec: `MATRIX_MAX_BATCH_SIZE`, the soft cap on a
batch (`make_message_batches` lives in
`raiden.network.transport.matrix.utils`, which is not among the sources);
the spec gives "typically ~50 KiB". -/
def MATRIX_MAX_BATCH_SIZE : Nat := 50000

/-- Modelled from the spec: `make_message_batches`
(`raiden.network.transport.matrix.utils`, not among the sources)
concatenates serialized messages with a newline into batches no larger than
the cap, never splitting a single message and never leaving a trailing
newline.  `acc` is the batch being accumulated. -/
def make_message_batches (cap : Nat) : List String → String → List String
  | [], acc => if acc = "" then [] else [acc]
  | t :: rest, acc =>
    if acc = "" then
      make_message_batches cap rest t
    else if acc.length + 1 + t.length ≤ cap then
      make_message_batches cap rest (acc ++ "\n" ++ t)
    else
      acc :: make_message_batches cap rest t

/-- Result of one `_check_and_send` call: the remaining `_message_queue`,
the collected `message_texts`, and the batches actually handed to
`transport._send_raw`. -/
structure CheckResult where
  queue : List MessageData
  message_texts : List String
  sends : List String

/-- `_RetryQueue._check_and_send` (transport.py lines 175-254).

Inputs mirror the state read by the method: whether the transport greenlet
exists (`transport.greenlet`, i.e. the transport was started), whether
`transport._stop_event` is ready, the aggregated reachability of the
receiver, the application's pending queues and the buffered entries.
`_prioritize_broadcast_messages` only blocks on the broadcast queue and
changes no state, so it has no effect on the result.

`raise_at` models `_send_raw` raising while batches are posted: the batches
before index `k` were posted, the rest were not (the exception propagates
out of the method).  Entry removal happens before any batch is posted, so
`queue` and `message_texts` do not depend on `raise_at`. -/
def check_and_send (transport_started : Bool) (stop_ready : Bool)
    (reach : AddressReachability)
    (queueids_to_queues : List (QueueIdentifier × List Nat))
    (message_queue : List MessageData) (raise_at : Option Nat) : CheckResult :=
  if transport_started = false then
    ⟨message_queue, [], []⟩
  else if stop_ready then
    ⟨message_queue, [], []⟩
  else if reach ≠ AddressReachability.reachable then
    ⟨message_queue, [], []⟩
  else
    let p := check_and_send_entries queueids_to_queues message_queue
    let batches :=
      if p.2.isEmpty then [] else make_message_batches MATRIX_MAX_BATCH_SIZE p.2 ""
    let sends :=
      match raise_at with
      | none => batches
      | some k => batches.take k
    ⟨p.1, p.2, sends⟩

/-- `_RetryQueue.is_idle` (transport.py lines 283-285). -/
def is_idle (idle_since : Nat) : Bool :=
  RETRY_QUEUE_IDLE_AFTER ≤ idle_since

/-- Outcome of one pass of the `_RetryQueue._run` loop. -/
inductive RunStep where
  | stoppedExit
  | idleExit
  | continueLoop (idle_since : Nat)
deriving DecidableEq, Repr

/-- One iteration of the `_RetryQueue._run` loop (transport.py lines
264-281): the `while not stop_event.ready()` condition is checked first;
inside the lock `_idle_since` is reset to 0 when the buffer is non-empty
(and `_check_and_send` runs) or incremented when it is empty; the loop
returns when `is_idle` holds, and otherwise waits and loops with the new
counter. -/
def run_iteration (stop_ready : Bool) (queue_nonempty : Bool) (idle_since : Nat) : RunStep :=
  if stop_ready then
    RunStep.stoppedExit
  else
    let idle := if queue_nonempty then 0 else idle_since + 1
    if is_idle idle then RunStep.idleExit else RunStep.continueLoop idle

/-- `eth_utils.is_binary_address`: a bytes value of length 20. -/
def is_binary_address (address : Address) : Bool :=
  address.length == 20

/-- The transport's `_address_to_retrier` map restricted to the buffers of
the per-peer RetryQueues. -/
abbrev RetrierMap := List (Address × List MessageData)

/-- `MatrixTransport._get_retrier` followed by a buffer update: fetch the
receiver's RetryQueue (creating an empty one when absent) and apply `f` to
its buffer. -/
def update_retrier : RetrierMap → Address → (List MessageData → List MessageData) → RetrierMap
  | [], a, f => [(a, f [])]
  | (b, q) :: rest, a, f =>
    if b = a then (b, f q) :: rest else (b, q) :: update_retrier rest a f

/-- `MatrixTransport.send_async` (transport.py lines 561-584): raises
`ValueError` when the recipient is not a binary address or the message is a
transport-internal type (`Delivered`, `Ping`, `Pong`); otherwise
`_send_with_retry` enqueues the message on the recipient's RetryQueue.
The raise is modelled as `Except.error`, leaving the retrier map untouched. -/
def send_async (retriers : RetrierMap) (queue_identifier : QueueIdentifier)
    (message : Message) (text : String) (gen : ExpGen) : Except String RetrierMap :=
  let receiver_address := queue_identifier.recipient
  if is_binary_address receiver_address = false then
    Except.error "Invalid address"
  else if is_transport_internal message then
    Except.error "Do not use send_async for transport messages"
  else
    Except.ok (update_retrier retriers receiver_address
      (fun q => enqueue q queue_identifier message text gen))

/-- Lexicographic order on byte strings, as Python compares `bytes`
values: elementwise, a strict proper initial segment being smaller. -/
def lexLt : List Nat → List Nat → Bool
  | [], [] => false
  | [], _ :: _ => true
  | _ :: _, [] => false
  | a :: as, b :: bs =>
    if a < b then true
    else if b < a then false
    else lexLt as bs

/-- Modelled from the spec: `my_place_or_yours`
(`raiden.network.transport.matrix.utils`, not among the sources) returns
the address of the peer responsible for creating the room, "the peer with
the lexicographically smaller address". -/
def my_place_or_yours (our_address partner_address : Address) : Address :=
  if lexLt our_address partner_address then our_address else partner_address

/-- The control flow of `MatrixTransport._maybe_create_room_for_address`
(transport.py lines 1085-1130) up to the `create_room` call: returns
whether `create_room` is invoked.  The function returns early when the stop
event is ready, when `_get_room_for_address` already yields a room, when
this node is not the elected creator, or when the user-directory search
yields no user whose signed display name validates to the partner address
(`partner_user_ids` is that validated list, the directory being an external
collaborator). -/
def maybe_create_room_for_address (stop_ready : Bool) (existing_room : Bool)
    (our_address address : Address) (partner_user_ids : List String) : Bool :=
  if stop_ready then false
  else if existing_room then false
  else
    let room_creator_address := my_place_or_yours our_address address
    if our_address ≠ room_creator_address then false
    else if partner_user_ids.isEmpty then false
    else true

/-- Whether `needle` is a leading segment of `haystack` (character lists). -/
def leadsWith : List Char → List Char → Bool
  | [], _ => true
  | _ :: _, [] => false
  | a :: as, b :: bs => a == b && leadsWith as bs

/-- Whether `needle` occurs contiguously inside `haystack`: the semantics
of the Python expression `needle in haystack` on strings. -/
def containsSub (needle : List Char) : List Char → Bool
  | [] => needle.isEmpty
  | b :: bs => leadsWith needle (b :: bs) || containsSub needle bs

/-- Python `suffix in room_alias` on strings. -/
def strIn (needle haystack : String) : Bool :=
  containsSub needle.data haystack.data

/-- The slice of `matrix_client.room.Room` the transport reads. -/
structure Room where
  room_id : String
  aliases : List String
  canonical_alias : Option String
deriving DecidableEq, Repr

/-- `MatrixTransport._is_broadcast_room` (transport.py lines 1186-1194),
translated as written: the method first builds `room_aliases` as the
room's aliases together with its canonical alias, but the comprehension it
returns iterates over `room.aliases` only, so the `room_aliases` binding is
dead. -/
def is_broadcast_room (broadcast_rooms : List String) (room : Room) : Bool :=
  let room_aliases :=
    room.aliases ++ (match room.canonical_alias with
      | some a => [a]
      | none => [])
  let _ := room_aliases
  broadcast_rooms.any fun suffix =>
    room.aliases.any fun room_alias => strIn suffix room_alias

/-- The broadcast-room predicate as the specification words it: a room is
broadcast iff any of its aliases plus its canonical alias contains any
configured broadcast suffix. -/
def is_broadcast_room_from_spec (broadcast_rooms : List String) (room : Room) : Bool :=
  let room_aliases :=
    room.aliases ++ (match room.canonical_alias with
      | some a => [a]
      | none => [])
  broadcast_rooms.any fun suffix =>
    room_aliases.any fun room_alias => strIn suffix room_alias

/-- `MatrixTransport._get_room_ids_for_address` (transport.py lines
1300-1310): the stored list filtered to the room ids currently known to
the client and marked invite-only; `keep` is that predicate on room ids
(the client's room table being an external collaborator). -/
def get_room_ids_for_address (keep : String → Bool) (stored : List String) : List String :=
  stored.filter keep

/-- `MatrixTransport._set_room_id_for_address` (transport.py lines
1290-1298): reads the filtered list and stores the new room id pushed to
the front, with any other occurrence of it dropped. -/
def set_room_id_for_address (keep : String → Bool) (stored : List String)
    (room_id : String) : List String :=
  let room_ids := get_room_ids_for_address keep stored
  room_id :: room_ids.filter (fun r => r ≠ room_id)

/-- Observable actions of `MatrixTransport._handle_sync_messages`
(transport.py lines 949-978) after the inbound texts have been parsed:
the `Delivered` acks enqueued (via `enqueue_unordered`, hence on the
unordered queue identifier of the sender) and the single
`_raiden_service.on_messages` call handing all accepted messages to the
application. -/
inductive SyncEvent where
  | enqueueDelivered (receiver : Address) (queue_identifier : QueueIdentifier) (message : Message)
  | onMessages (messages : List Message)
deriving DecidableEq, Repr

/-- `MatrixTransport._handle_sync_messages` (transport.py lines 949-978),
from the point where `all_messages` — the accepted messages produced by
`_handle_text` over the synced rooms — is known.  When the stop event is
ready the method returns immediately.  Otherwise, for every accepted
message that is a `Processed`/`SignedRetrieableMessage` with a (truthy)
sender, a `Delivered` carrying the message's identifier is built with the
empty signature, signed by the node (yielding `node_signature`), and
enqueued unordered on the sender's RetryQueue; afterwards `on_messages` is
called once with all accepted messages.  The returned list is the ordered
trace of those actions. -/
def handle_sync_messages (stop_ready : Bool) (node_signature : Nat)
    (all_messages : List Message) : List SyncEvent :=
  if stop_ready then []
  else
    (all_messages.filterMap fun message =>
      match message with
      | Message.signedRetrieable mid (some sender) _ =>
        some (SyncEvent.enqueueDelivered sender
          ⟨sender, CANONICAL_IDENTIFIER_UNORDERED_QUEUE⟩
          (Message.delivered mid node_signature))
      | _ => none)
    ++ [SyncEvent.onMessages all_messages]

end RaidenTransport

namespace RaidenTransport

/-! Sample inputs used by the witness theorems. -/

/-- A sample expiration generator that is always ready. -/
def sampleGen : ExpGen := ⟨fun _ => true, 0⟩

/-- A sample expiration generator that is never ready. -/
def sampleGenOff : ExpGen := ⟨fun _ => false, 0⟩

/-- A sample queue identifier. -/
def sampleQid : QueueIdentifier := ⟨[5], 1⟩

/-- A sample retryable message. -/
def sampleMsg : Message := Message.signedRetrieable 11 none 0

/-- A sample buffered entry. -/
def sampleEntry : MessageData := ⟨sampleQid, sampleMsg, "x", sampleGen⟩

/-- A buffered `Delivered` entry. -/
def deliveredEntry : MessageData := ⟨⟨[187], 0⟩, Message.delivered 3 9, "delivered-text", sampleGen⟩

/-- A buffered retryable entry whose queue identifier is absent from the
application queues. -/
def staleEntry : MessageData := ⟨⟨[187], 5⟩, Message.signedRetrieable 7 none 0, "m7", sampleGen⟩

/-- A room whose only broadcast-suffix alias is its canonical alias. -/
def bugRoom : Room := ⟨"!r:server", [], some "raiden_1_discovery"⟩

/-- The event counted for the ack-completeness claim: an `enqueueDelivered`
action whose receiver is `a`, whose queue identifier is the unordered queue
of `a`, and whose message is `Delivered` with identifier `mid` and
signature `sig`. -/
def is_delivered_enqueue_for (a : Address) (mid sig : Nat) (e : SyncEvent) : Bool :=
  e == SyncEvent.enqueueDelivered a ⟨a, CANONICAL_IDENTIFIER_UNORDERED_QUEUE⟩
    (Message.delivered mid sig)

/-- The accepted messages counted for the ack-completeness claim: signed
retryable messages with sender `a` and message identifier `mid` (the
condition of transport.py line 965 specialised to that sender and
identifier). -/
def is_ack_source (a : Address) (mid : Nat) (m : Message) : Bool :=
  message_sender m == some a && retrieable_message_identifier m == some mid

/-! Helper lemmas. -/

/-- `lexLt` is asymmetric. -/
theorem lexLt_asymm (a : List Nat) : ∀ b, lexLt a b = true → lexLt b a = false := by
  induction a with
  | nil =>
    intro b _hb
    cases b with
    | nil => simp [lexLt]
    | cons y ys => simp [lexLt]
  | cons x xs ih =>
    intro b hb
    cases b with
    | nil => simp [lexLt] at hb
    | cons y ys =>
      by_cases h1 : x < y
      · have h2 : ¬ y < x := Nat.lt_asymm h1
        simp [lexLt, h1, h2, Nat.lt_irrefl]
      · by_cases h3 : y < x
        · simp [lexLt, h1, h3] at hb
        · have hxy : lexLt xs ys = true := by simpa [lexLt, h1, h3] using hb
          simp [lexLt, h1, h3, ih ys hxy]

/-- `lexLt` is total on distinct lists. -/
theorem lexLt_total (a : List Nat) : ∀ b, a = b ∨ lexLt a b = true ∨ lexLt b a = true := by
  induction a with
  | nil =>
    intro b
    cases b with
    | nil => exact Or.inl rfl
    | cons y ys => exact Or.inr (Or.inl (by simp [lexLt]))
  | cons x xs ih =>
    intro b
    cases b with
    | nil => exact Or.inr (Or.inr (by simp [lexLt]))
    | cons y ys =>
      rcases Nat.lt_trichotomy x y with h | h | h
      · exact Or.inr (Or.inl (by simp [lexLt, h]))
      · subst h
        rcases ih ys with h2 | h2 | h2
        · exact Or.inl (by rw [h2])
        · exact Or.inr (Or.inl (by simp [lexLt, Nat.lt_irrefl, h2]))
        · exact Or.inr (Or.inr (by simp [lexLt, Nat.lt_irrefl, h2]))
      · exact Or.inr (Or.inr (by simp [lexLt, h]))

/-- Both peers elect the same creator. -/
theorem my_place_or_yours_comm (a b : Address) (h : a ≠ b) :
    my_place_or_yours a b = my_place_or_yours b a := by
  rcases lexLt_total a b with he | hl | hl
  · exact absurd he h
  · have ha := lexLt_asymm a b hl
    simp [my_place_or_yours, hl, ha]
  · have ha := lexLt_asymm b a hl
    simp [my_place_or_yours, hl, ha]

/-- After `enqueue`, an entry with the given pair is buffered. -/
theorem enqueue_mem_pair (q : List MessageData) (qid : QueueIdentifier) (m : Message)
    (t : String) (g : ExpGen) :
    ∃ d ∈ enqueue q qid m t g, d.queue_identifier = qid ∧ d.message = m := by
  by_cases h : (q.any fun data => qid == data.queue_identifier && m == data.message) = true
  · obtain ⟨d, hd, hb⟩ := List.any_eq_true.mp h
    rw [Bool.and_eq_true, beq_iff_eq, beq_iff_eq] at hb
    refine ⟨d, ?_, hb.1.symm, hb.2.symm⟩
    simpa [enqueue, h] using hd
  · refine ⟨⟨qid, m, t, g⟩, ?_, rfl, rfl⟩
    simp [enqueue, h]


/-- Claim C2: for every peer whose aggregated reachability is not
REACHABLE, a RetryQueue tick performs no `_send_raw` call for that peer and
all buffered entries remain in the queue unchanged. -/
theorem c2_reachability_gate (transport_started stop_ready : Bool)
    (reach : AddressReachability) (qmap : List (QueueIdentifier × List Nat))
    (message_queue : List MessageData) (raise_at : Option Nat)
    (h : reach ≠ AddressReachability.reachable) :
    check_and_send transport_started stop_ready reach qmap message_queue raise_at =
      ⟨message_queue, [], []⟩ := by
  unfold check_and_send
  by_cases h1 : transport_started = false
  · simp [h1]
  · by_cases h2 : stop_ready
    · simp [h1, h2]
    · simp [h1, h2, h]

/-- Witness for C2 at a concrete unreachable peer with one buffered entry. -/
theorem c2_reachability_gate_witness :
    (AddressReachability.unknown ≠ AddressReachability.reachable) ∧
      check_and_send true false AddressReachability.unknown [] [sampleEntry] none =
        ⟨[sampleEntry], [], []⟩ :=
  ⟨by decide,
    c2_reachability_gate true false AddressReachability.unknown [] [sampleEntry] none
      (by decide)⟩

/-- Claim C3: for distinct addresses the elected creator is the
lexicographically smaller one, both sides elect the same creator, the
non-creator's `_maybe_create_room_for_address` never reaches `create_room`,
and the creator's call reaches `create_room` whenever it is not stopped, no
room exists yet and the partner has validated users. -/
theorem c3_creator_election (a b : Address) (hne : a ≠ b) :
    my_place_or_yours a b = my_place_or_yours b a ∧
    (my_place_or_yours a b = a ∨ my_place_or_yours a b = b) ∧
    (lexLt a b = true → my_place_or_yours a b = a) ∧
    (lexLt b a = true → my_place_or_yours a b = b) ∧
    (my_place_or_yours a b ≠ a →
      ∀ (stop ex : Bool) (users : List String),
        maybe_create_room_for_address stop ex a b users = false) ∧
    (my_place_or_yours a b ≠ b →
      ∀ (stop ex : Bool) (users : List String),
        maybe_create_room_for_address stop ex b a users = false) ∧
    (my_place_or_yours a b = a → ∀ users : List String, users ≠ [] →
      maybe_create_room_for_address false false a b users = true) ∧
    (my_place_or_yours a b = b → ∀ users : List String, users ≠ [] →
      maybe_create_room_for_address false false b a users = true) := by
  refine ⟨my_place_or_yours_comm a b hne, ?_, ?_, ?_, ?_, ?_, ?_, ?_⟩
  · by_cases hl : lexLt a b = true
    · exact Or.inl (by simp [my_place_or_yours, hl])
    · exact Or.inr (by simp [my_place_or_yours, hl])
  · intro hl
    simp [my_place_or_yours, hl]
  · intro hl
    have ha := lexLt_asymm b a hl
    simp [my_place_or_yours, ha]
  · intro hc stop ex users
    have hac : a ≠ my_place_or_yours a b := fun h => hc h.symm
    cases stop with
    | true => simp [maybe_create_room_for_address]
    | false =>
      cases ex with
      | true => simp [maybe_create_room_for_address]
      | false => simp [maybe_create_room_for_address, hac]
  · intro hc stop ex users
    have hcomm := my_place_or_yours_comm a b hne
    have hbc : b ≠ my_place_or_yours b a := by
      rw [← hcomm]
      exact fun h => hc h.symm
    cases stop with
    | true => simp [maybe_create_room_for_address]
    | false =>
      cases ex with
      | true => simp [maybe_create_room_for_address]
      | false => simp [maybe_create_room_for_address, hbc]
  · intro hc users hu
    cases users with
    | nil => exact absurd rfl hu
    | cons u us => simp [maybe_create_room_for_address, hc]
  · intro hc users hu
    have hcomm := my_place_or_yours_comm a b hne
    have hbc : my_place_or_yours b a = b := by rw [← hcomm]; exact hc
    cases users with
    | nil => exact absurd rfl hu
    | cons u us => simp [maybe_create_room_for_address, hbc]

/-- Witness for C3 at the concrete pair of addresses [1] and [2]. -/
theorem c3_creator_election_witness :
    (([1] : Address) ≠ [2]) ∧
    (my_place_or_yours [1] [2] = my_place_or_yours [2] [1] ∧
      (my_place_or_yours [1] [2] = [1] ∨ my_place_or_yours [1] [2] = [2]) ∧
      (lexLt [1] [2] = true → my_place_or_yours [1] [2] = [1]) ∧
      (lexLt [2] [1] = true → my_place_or_yours [1] [2] = [2]) ∧
      (my_place_or_yours [1] [2] ≠ [1] →
        ∀ (stop ex : Bool) (users : List String),
          maybe_create_room_for_address stop ex [1] [2] users = false) ∧
      (my_place_or_yours [1] [2] ≠ [2] →
        ∀ (stop ex : Bool) (users : List String),
          maybe_create_room_for_address stop ex [2] [1] users = false) ∧
      (my_place_or_yours [1] [2] = [1] → ∀ users : List String, users ≠ [] →
        maybe_create_room_for_address false false [1] [2] users = true) ∧
      (my_place_or_yours [1] [2] = [2] → ∀ users : List String, users ≠ [] →
        maybe_create_room_for_address false false [2] [1] users = true)) :=
  ⟨by decide, c3_creator_election [1] [2] (by decide)⟩

/-- Claim C6: enqueuing a (queue_identifier, message) pair already buffered
leaves the buffer unchanged, and enqueuing the same pair twice leaves the
buffer (hence its size) unchanged. -/
theorem c6_enqueue_dedup (q : List MessageData) (qid : QueueIdentifier) (m : Message)
    (t t2 : String) (g g2 : ExpGen)
    (h : ∃ d ∈ q, d.queue_identifier = qid ∧ d.message = m) :
    enqueue q qid m t g = q ∧
      enqueue (enqueue q qid m t g) qid m t2 g2 = enqueue q qid m t g ∧
      (enqueue (enqueue q qid m t g) qid m t2 g2).length =
        (enqueue q qid m t g).length := by
  obtain ⟨d, hd, h1, h2⟩ := h
  have hany : (q.any fun data => qid == data.queue_identifier && m == data.message) = true := by
    refine List.any_eq_true.mpr ⟨d, hd, ?_⟩
    rw [Bool.and_eq_true, beq_iff_eq, beq_iff_eq]
    exact ⟨h1.symm, h2.symm⟩
  have he : enqueue q qid m t g = q := by simp [enqueue, hany]
  refine ⟨he, ?_, ?_⟩
  · rw [he]
    simp [enqueue, hany]
  · rw [he]
    simp [enqueue, hany]

/-- Witness for C6 at a concrete singleton buffer. -/
theorem c6_enqueue_dedup_witness :
    (∃ d ∈ [sampleEntry], d.queue_identifier = sampleQid ∧ d.message = sampleMsg) ∧
    (enqueue [sampleEntry] sampleQid sampleMsg "y" sampleGenOff = [sampleEntry] ∧
      enqueue (enqueue [sampleEntry] sampleQid sampleMsg "y" sampleGenOff)
          sampleQid sampleMsg "z" sampleGenOff =
        enqueue [sampleEntry] sampleQid sampleMsg "y" sampleGenOff ∧
      (enqueue (enqueue [sampleEntry] sampleQid sampleMsg "y" sampleGenOff)
          sampleQid sampleMsg "z" sampleGenOff).length =
        (enqueue [sampleEntry] sampleQid sampleMsg "y" sampleGenOff).length) :=
  ⟨⟨sampleEntry, List.mem_singleton.mpr rfl, rfl, rfl⟩,
    c6_enqueue_dedup [sampleEntry] sampleQid sampleMsg "y" "z" sampleGenOff sampleGenOff
      ⟨sampleEntry, List.mem_singleton.mpr rfl, rfl, rfl⟩⟩

/-- Claim C7 (counterexample to the claim as stated): when the transport's
stop event is set, the `_run` loop terminates (the while condition fails)
even though `is_idle` does not hold, so "the loop terminates exactly when
`is_idle` becomes true" fails. -/
theorem c7_idle_exit_counterexample :
    run_iteration true true 0 = RunStep.stoppedExit ∧
    RunStep.stoppedExit ≠ RunStep.idleExit ∧
    is_idle 0 = false ∧ is_idle 1 = false :=
  ⟨rfl, by decide, rfl, rfl⟩

/-- Claim C7 (amended): while the stop event is not set, one loop iteration
exits exactly when `is_idle` holds for the updated counter, `is_idle` holds
iff the counter reached `RETRY_QUEUE_IDLE_AFTER` (= 10), and a non-empty
iteration resets the counter to zero (otherwise it is incremented and the
loop continues with it). -/
theorem c7_idle_exit_amended (stop_ready queue_nonempty : Bool) (idle_since : Nat)
    (h : stop_ready = false) :
    (run_iteration stop_ready queue_nonempty idle_since = RunStep.idleExit ↔
      is_idle (if queue_nonempty then 0 else idle_since + 1) = true) ∧
    (is_idle (if queue_nonempty then 0 else idle_since + 1) = true ↔
      RETRY_QUEUE_IDLE_AFTER ≤ (if queue_nonempty then 0 else idle_since + 1)) ∧
    RETRY_QUEUE_IDLE_AFTER = 10 ∧
    (queue_nonempty = true → (if queue_nonempty then 0 else idle_since + 1) = 0) ∧
    (run_iteration stop_ready queue_nonempty idle_since = RunStep.idleExit ∨
      run_iteration stop_ready queue_nonempty idle_since =
        RunStep.continueLoop (if queue_nonempty then 0 else idle_since + 1)) := by
  subst h
  refine ⟨?_, ?_, rfl, ?_, ?_⟩
  · by_cases hi : is_idle (if queue_nonempty then 0 else idle_since + 1) = true
    · simp [run_iteration, hi]
    · simp [run_iteration, hi]
  · simp [is_idle]
  · intro hq
    simp [hq]
  · by_cases hi : is_idle (if queue_nonempty then 0 else idle_since + 1) = true
    · exact Or.inl (by simp [run_iteration, hi])
    · exact Or.inr (by simp [run_iteration, hi])

/-- Witness for the amended C7: the tenth consecutive empty iteration
exits the loop. -/
theorem c7_idle_exit_amended_witness :
    ((false : Bool) = false) ∧
    ((run_iteration false false 9 = RunStep.idleExit ↔
        is_idle (if (false : Bool) then 0 else 9 + 1) = true) ∧
      (is_idle (if (false : Bool) then 0 else 9 + 1) = true ↔
        RETRY_QUEUE_IDLE_AFTER ≤ (if (false : Bool) then 0 else 9 + 1)) ∧
      RETRY_QUEUE_IDLE_AFTER = 10 ∧
      ((false : Bool) = true → (if (false : Bool) then 0 else 9 + 1) = 0) ∧
      (run_iteration false false 9 = RunStep.idleExit ∨
        run_iteration false false 9 =
          RunStep.continueLoop (if (false : Bool) then 0 else 9 + 1))) :=
  ⟨rfl, c7_idle_exit_amended false false 9 rfl⟩

/-- Claim C9: `_is_broadcast_room` never consults the canonical alias: at
`bugRoom`, whose alias list is empty and whose canonical alias contains the
configured broadcast suffix, the source returns false while the specified
predicate (aliases plus canonical alias) returns true. -/
theorem c9_broadcast_room_divergence :
    is_broadcast_room ["discovery"] bugRoom = false ∧
    is_broadcast_room_from_spec ["discovery"] bugRoom = true := by
  constructor
  · rfl
  · decide

/-- Claim C10: `_set_room_id_for_address` stores a list headed by the new
room id, containing it exactly once, whose tail preserves the relative
order of the other retained room ids, and which is duplicate-free whenever
the previously stored list was. -/
theorem c10_set_room_id (keep : String → Bool) (stored : List String) (room_id : String)
    (h : stored.Nodup) :
    (set_room_id_for_address keep stored room_id).head? = some room_id ∧
    (set_room_id_for_address keep stored room_id).count room_id = 1 ∧
    (set_room_id_for_address keep stored room_id).tail.Sublist
      (stored.filter fun r => r ≠ room_id) ∧
    (set_room_id_for_address keep stored room_id).Nodup := by
  have hmemT : room_id ∉ (stored.filter keep).filter (fun r => r ≠ room_id) := by
    intro hm
    have h2 := (List.mem_filter.mp hm).2
    simp at h2
  have hnodupT : ((stored.filter keep).filter (fun r => r ≠ room_id)).Nodup :=
    (h.filter keep).filter _
  refine ⟨rfl, ?_, ?_, ?_⟩
  · show (room_id :: (stored.filter keep).filter (fun r => r ≠ room_id)).count room_id = 1
    rw [List.count_cons_self, List.count_eq_zero.mpr hmemT]
  · show ((stored.filter keep).filter (fun r => r ≠ room_id)).Sublist
      (stored.filter fun r => r ≠ room_id)
    exact List.Sublist.filter _ (List.filter_sublist stored)
  · show (room_id :: (stored.filter keep).filter (fun r => r ≠ room_id)).Nodup
    exact List.nodup_cons.mpr ⟨hmemT, hnodupT⟩

/-- Witness for C10 at a concrete stored list. -/
theorem c10_set_room_id_witness :
    (["a", "b"] : List String).Nodup ∧
    ((set_room_id_for_address (fun _ => true) ["a", "b"] "b").head? = some "b" ∧
      (set_room_id_for_address (fun _ => true) ["a", "b"] "b").count "b" = 1 ∧
      (set_room_id_for_address (fun _ => true) ["a", "b"] "b").tail.Sublist
        (["a", "b"].filter fun r => r ≠ "b") ∧
      (set_room_id_for_address (fun _ => true) ["a", "b"] "b").Nodup) :=
  ⟨by decide, c10_set_room_id (fun _ => true) ["a", "b"] "b" (by decide)⟩


/-- Claim C8: `send_async` raises `ValueError` exactly when the recipient
is not a valid binary address or the message is transport-internal
(`Delivered`, `Ping`, `Pong`); in the error cases nothing is enqueued (the
raise happens before `_send_with_retry`), and otherwise the message is
enqueued on the recipient's RetryQueue without raising. -/
theorem c8_send_async (retriers : RetrierMap) (qid : QueueIdentifier) (m : Message)
    (t : String) (g : ExpGen) :
    ((∃ e, send_async retriers qid m t g = Except.error e) ↔
      (is_binary_address qid.recipient = false ∨ is_transport_internal m = true)) ∧
    (is_binary_address qid.recipient = true → is_transport_internal m = false →
      send_async retriers qid m t g =
        Except.ok (update_retrier retriers qid.recipient
          (fun q => enqueue q qid m t g))) := by
  cases hb : is_binary_address qid.recipient with
  | false =>
    refine ⟨⟨fun _ => Or.inl rfl, fun _ => ⟨"Invalid address", by simp [send_async, hb]⟩⟩, ?_⟩
    intro h1 _
    exact Bool.noConfusion h1
  | true =>
    cases hm : is_transport_internal m with
    | true =>
      refine ⟨⟨fun _ => Or.inr rfl,
        fun _ => ⟨"Do not use send_async for transport messages",
          by simp [send_async, hb, hm]⟩⟩, ?_⟩
      intro _ h2
      exact Bool.noConfusion h2
    | false =>
      have hok : send_async retriers qid m t g =
          Except.ok (update_retrier retriers qid.recipient
            (fun q => enqueue q qid m t g)) := by
        simp [send_async, hb, hm]
      refine ⟨⟨?_, ?_⟩, fun _ _ => hok⟩
      · rintro ⟨e, he⟩
        rw [hok] at he
        cases he
      · rintro (h | h)
        · exact Bool.noConfusion h
        · exact Bool.noConfusion h

/-- Witness for C8: a valid 20-byte recipient and a retryable message are
enqueued without an error. -/
theorem c8_send_async_witness :
    is_binary_address (QueueIdentifier.mk (List.replicate 20 0) 1).recipient = true ∧
    is_transport_internal sampleMsg = false ∧
    send_async [] ⟨List.replicate 20 0, 1⟩ sampleMsg "t" sampleGenOff =
      Except.ok (update_retrier [] (QueueIdentifier.mk (List.replicate 20 0) 1).recipient
        (fun q => enqueue q ⟨List.replicate 20 0, 1⟩ sampleMsg "t" sampleGenOff)) :=
  ⟨by decide, rfl,
    (c8_send_async [] ⟨List.replicate 20 0, 1⟩ sampleMsg "t" sampleGenOff).2 (by decide) rfl⟩

/-- Counting the synthesized `Delivered` enqueues: the events produced by
the ack loop of `_handle_sync_messages` for sender `a` and identifier `mid`
are in bijection with the accepted signed retryable messages from `a` with
identifier `mid`. -/
theorem countP_delivered_events (sig : Nat) (a : Address) (mid : Nat) (msgs : List Message) :
    ((msgs.filterMap fun message =>
        match message with
        | Message.signedRetrieable m (some sender) _ =>
          some (SyncEvent.enqueueDelivered sender
            ⟨sender, CANONICAL_IDENTIFIER_UNORDERED_QUEUE⟩ (Message.delivered m sig))
        | _ => none).countP (is_delivered_enqueue_for a mid sig))
      = msgs.countP (is_ack_source a mid) := by
  induction msgs with
  | nil => rfl
  | cons m rest ih =>
    cases m with
    | delivered d s =>
      simpa [List.filterMap_cons, List.countP_cons, is_ack_source, message_sender,
        retrieable_message_identifier] using ih
    | ping n =>
      simpa [List.filterMap_cons, List.countP_cons, is_ack_source, message_sender,
        retrieable_message_identifier] using ih
    | pong n =>
      simpa [List.filterMap_cons, List.countP_cons, is_ack_source, message_sender,
        retrieable_message_identifier] using ih
    | signedRetrieable m2 sender s2 =>
      cases sender with
      | none =>
        simpa [List.filterMap_cons, List.countP_cons, is_ack_source, message_sender,
          retrieable_message_identifier] using ih
      | some a2 =>
        by_cases h1 : a2 = a
        · subst h1
          by_cases h2 : m2 = mid
          · subst h2
            simp [List.filterMap_cons, List.countP_cons, is_ack_source, message_sender,
              retrieable_message_identifier, is_delivered_enqueue_for, ih]
          · simp [List.filterMap_cons, List.countP_cons, is_ack_source, message_sender,
              retrieable_message_identifier, is_delivered_enqueue_for, h2, ih]
        · simp [List.filterMap_cons, List.countP_cons, is_ack_source, message_sender,
            retrieable_message_identifier, is_delivered_enqueue_for, h1, ih]

/-- Claim C1: when the transport is not stopping, for each accepted signed
retryable inbound message with known sender occurring exactly once among
the accepted messages (counted by sender and identifier), exactly one
`Delivered` whose `delivered_message_identifier` equals the message's
identifier is signed and enqueued unordered on the sender's RetryQueue, and
every such enqueue happens before the single `on_messages` application
callback, which receives all accepted messages. -/
theorem c1_ack_completeness (sig : Nat) (msgs : List Message) (mid : Nat) (a : Address)
    (hcount : msgs.countP (is_ack_source a mid) = 1) :
    ((handle_sync_messages false sig msgs).countP (is_delivered_enqueue_for a mid sig) = 1) ∧
    (handle_sync_messages false sig msgs).getLast? = some (SyncEvent.onMessages msgs) ∧
    (∀ e ∈ (handle_sync_messages false sig msgs).dropLast,
      ∃ r q dm, e = SyncEvent.enqueueDelivered r q dm) := by
  have hform : handle_sync_messages false sig msgs =
      (msgs.filterMap fun message =>
        match message with
        | Message.signedRetrieable m (some sender) _ =>
          some (SyncEvent.enqueueDelivered sender
            ⟨sender, CANONICAL_IDENTIFIER_UNORDERED_QUEUE⟩ (Message.delivered m sig))
        | _ => none) ++ [SyncEvent.onMessages msgs] := rfl
  refine ⟨?_, ?_, ?_⟩
  · rw [hform, List.countP_append, countP_delivered_events, hcount]
    simp [is_delivered_enqueue_for]
  · rw [hform]
    exact List.getLast?_concat _
  · rw [hform, List.dropLast_concat]
    intro e he
    obtain ⟨m, hm, hf⟩ := List.mem_filterMap.mp he
    cases m with
    | delivered d s => simp at hf
    | ping n => simp at hf
    | pong n => simp at hf
    | signedRetrieable m2 sender s2 =>
      cases sender with
      | none => simp at hf
      | some a2 =>
        exact ⟨a2, ⟨a2, CANONICAL_IDENTIFIER_UNORDERED_QUEUE⟩, Message.delivered m2 sig,
          (Option.some.inj hf).symm⟩

/-- Witness for C1: a single accepted signed retryable message with sender
[187] and identifier 7 yields exactly one unordered `Delivered` enqueue
before the application callback. -/
theorem c1_ack_completeness_witness :
    ([Message.signedRetrieable 7 (some [187]) 4].countP (is_ack_source [187] 7) = 1) ∧
    (((handle_sync_messages false 9 [Message.signedRetrieable 7 (some [187]) 4]).countP
        (is_delivered_enqueue_for [187] 7 9) = 1) ∧
      (handle_sync_messages false 9 [Message.signedRetrieable 7 (some [187]) 4]).getLast? =
        some (SyncEvent.onMessages [Message.signedRetrieable 7 (some [187]) 4]) ∧
      (∀ e ∈ (handle_sync_messages false 9
          [Message.signedRetrieable 7 (some [187]) 4]).dropLast,
        ∃ r q dm, e = SyncEvent.enqueueDelivered r q dm)) :=
  ⟨by decide,
    c1_ack_completeness 9 [Message.signedRetrieable 7 (some [187]) 4] 7 [187] (by decide)⟩


/-- `message_is_in_queue` depends only on the entry's queue identifier and
message. -/
theorem message_is_in_queue_fields (qmap : List (QueueIdentifier × List Nat))
    (d d' : MessageData) (h1 : d'.queue_identifier = d.queue_identifier)
    (h2 : d'.message = d.message) :
    message_is_in_queue qmap d' = message_is_in_queue qmap d := by
  unfold message_is_in_queue
  rw [h1, h2]

/-- Every entry kept by the `_check_and_send` loop is retryable and still
present in the application's queue. -/
theorem ce_kept_shape (qmap : List (QueueIdentifier × List Nat)) (entries : List MessageData) :
    ∀ d ∈ (check_and_send_entries qmap entries).1,
      is_transport_internal d.message = false ∧ message_is_in_queue qmap d = true := by
  induction entries with
  | nil =>
    intro d hd
    simp [check_and_send_entries] at hd
  | cons md rest ih =>
    intro d hd
    cases h1 : is_transport_internal md.message with
    | true =>
      simp only [check_and_send_entries, h1, if_true] at hd
      exact ih d hd
    | false =>
      cases h2 : message_is_in_queue qmap md with
      | false =>
        simp only [check_and_send_entries, h1, h2, Bool.false_eq_true, if_false] at hd
        exact ih d hd
      | true =>
        cases hr : md.expiration_generator.outs md.expiration_generator.idx with
        | true =>
          simp only [check_and_send_entries, h1, h2, ExpGen.next, hr, Bool.false_eq_true,
            if_false, if_true, List.mem_cons] at hd
          rcases hd with rfl | hd
          · exact ⟨h1, h2⟩
          · exact ih d hd
        | false =>
          simp only [check_and_send_entries, h1, h2, ExpGen.next, hr, Bool.false_eq_true,
            if_false, if_true, List.mem_cons] at hd
          rcases hd with rfl | hd
          · exact ⟨h1, h2⟩
          · exact ih d hd

/-- Every buffered non-retryable entry has its text collected by the
`_check_and_send` loop. -/
theorem ce_internal_collected (qmap : List (QueueIdentifier × List Nat))
    (entries : List MessageData) :
    ∀ d ∈ entries, is_transport_internal d.message = true →
      d.text ∈ (check_and_send_entries qmap entries).2 := by
  induction entries with
  | nil =>
    intro d hd
    simp at hd
  | cons md rest ih =>
    intro d hd hint
    rcases List.mem_cons.mp hd with rfl | hd'
    · simp [check_and_send_entries, hint]
    · have htail := ih d hd' hint
      cases h1 : is_transport_internal md.message with
      | true => simp [check_and_send_entries, h1, htail]
      | false =>
        cases h2 : message_is_in_queue qmap md with
        | false => simpa [check_and_send_entries, h1, h2] using htail
        | true =>
          cases hr : md.expiration_generator.outs md.expiration_generator.idx with
          | true => simp [check_and_send_entries, h1, h2, ExpGen.next, hr, htail]
          | false => simpa [check_and_send_entries, h1, h2, ExpGen.next, hr] using htail

/-- Every buffered retryable entry still present in the application's queue
is kept by the `_check_and_send` loop (with its generator advanced but the
identifying fields and text unchanged). -/
theorem ce_retryable_kept (qmap : List (QueueIdentifier × List Nat))
    (entries : List MessageData) :
    ∀ d ∈ entries, is_transport_internal d.message = false →
      message_is_in_queue qmap d = true →
      ∃ d' ∈ (check_and_send_entries qmap entries).1,
        d'.queue_identifier = d.queue_identifier ∧ d'.message = d.message ∧
          d'.text = d.text := by
  induction entries with
  | nil =>
    intro d hd
    simp at hd
  | cons md rest ih =>
    intro d hd hint hq
    rcases List.mem_cons.mp hd with rfl | hd'
    · cases hr : d.expiration_generator.outs d.expiration_generator.idx with
      | true =>
        refine ⟨⟨d.queue_identifier, d.message, d.text,
          ⟨d.expiration_generator.outs, d.expiration_generator.idx + 1⟩⟩, ?_, rfl, rfl, rfl⟩
        simp [check_and_send_entries, hint, hq, ExpGen.next, hr]
      | false =>
        refine ⟨⟨d.queue_identifier, d.message, d.text,
          ⟨d.expiration_generator.outs, d.expiration_generator.idx + 1⟩⟩, ?_, rfl, rfl, rfl⟩
        simp [check_and_send_entries, hint, hq, ExpGen.next, hr]
    · obtain ⟨d', hd'el, he1, he2, he3⟩ := ih d hd' hint hq
      refine ⟨d', ?_, he1, he2, he3⟩
      cases h1 : is_transport_internal md.message with
      | true => simpa [check_and_send_entries, h1] using hd'el
      | false =>
        cases h2 : message_is_in_queue qmap md with
        | false => simpa [check_and_send_entries, h1, h2] using hd'el
        | true =>
          cases hr : md.expiration_generator.outs md.expiration_generator.idx with
          | true =>
            simp only [check_and_send_entries, h1, h2, ExpGen.next, hr, Bool.false_eq_true,
              if_false, if_true, List.mem_cons]
            exact Or.inr hd'el
          | false =>
            simp only [check_and_send_entries, h1, h2, ExpGen.next, hr, Bool.false_eq_true,
              if_false, if_true, List.mem_cons]
            exact Or.inr hd'el

/-- Every buffered retryable entry still present in the application's queue
whose expiration generator is ready has its text collected. -/
theorem ce_ready_collected (qmap : List (QueueIdentifier × List Nat))
    (entries : List MessageData) :
    ∀ d ∈ entries, is_transport_internal d.message = false →
      message_is_in_queue qmap d = true →
      d.expiration_generator.outs d.expiration_generator.idx = true →
      d.text ∈ (check_and_send_entries qmap entries).2 := by
  induction entries with
  | nil =>
    intro d hd
    simp at hd
  | cons md rest ih =>
    intro d hd hint hq hr
    rcases List.mem_cons.mp hd with rfl | hd'
    · simp [check_and_send_entries, hint, hq, ExpGen.next, hr]
    · have htail := ih d hd' hint hq hr
      cases h1 : is_transport_internal md.message with
      | true => simp [check_and_send_entries, h1, htail]
      | false =>
        cases h2 : message_is_in_queue qmap md with
        | false => simpa [check_and_send_entries, h1, h2] using htail
        | true =>
          cases hmr : md.expiration_generator.outs md.expiration_generator.idx with
          | true => simp [check_and_send_entries, h1, h2, ExpGen.next, hmr, htail]
          | false => simpa [check_and_send_entries, h1, h2, ExpGen.next, hmr] using htail

/-- Every collected text stems from a buffered entry that is either
non-retryable or retryable, still queued and ready. -/
theorem ce_texts_source (qmap : List (QueueIdentifier × List Nat))
    (entries : List MessageData) :
    ∀ t ∈ (check_and_send_entries qmap entries).2,
      ∃ d ∈ entries, d.text = t ∧
        (is_transport_internal d.message = true ∨
          (message_is_in_queue qmap d = true ∧
            d.expiration_generator.outs d.expiration_generator.idx = true)) := by
  induction entries with
  | nil =>
    intro t ht
    simp [check_and_send_entries] at ht
  | cons md rest ih =>
    intro t ht
    cases h1 : is_transport_internal md.message with
    | true =>
      simp only [check_and_send_entries, h1, if_true, List.mem_cons] at ht
      rcases ht with rfl | ht
      · exact ⟨md, List.mem_cons_self md rest, rfl, Or.inl h1⟩
      · obtain ⟨d, hd, hdt, hcase⟩ := ih t ht
        exact ⟨d, List.mem_cons_of_mem md hd, hdt, hcase⟩
    | false =>
      cases h2 : message_is_in_queue qmap md with
      | false =>
        simp only [check_and_send_entries, h1, h2, Bool.false_eq_true, if_false] at ht
        obtain ⟨d, hd, hdt, hcase⟩ := ih t ht
        exact ⟨d, List.mem_cons_of_mem md hd, hdt, hcase⟩
      | true =>
        cases hr : md.expiration_generator.outs md.expiration_generator.idx with
        | true =>
          simp only [check_and_send_entries, h1, h2, ExpGen.next, hr, Bool.false_eq_true,
            if_false, if_true, List.mem_cons] at ht
          rcases ht with rfl | ht
          · exact ⟨md, List.mem_cons_self md rest, rfl, Or.inr ⟨h2, hr⟩⟩
          · obtain ⟨d, hd, hdt, hcase⟩ := ih t ht
            exact ⟨d, List.mem_cons_of_mem md hd, hdt, hcase⟩
        | false =>
          simp only [check_and_send_entries, h1, h2, ExpGen.next, hr, Bool.false_eq_true,
            if_false, if_true, List.mem_cons] at ht
          obtain ⟨d, hd, hdt, hcase⟩ := ih t ht
          exact ⟨d, List.mem_cons_of_mem md hd, hdt, hcase⟩


/-- Claim C4 (counterexample to the claim as stated): a buffered
`Delivered` entry has its text collected, yet the entry is removed from the
buffer before `_send_raw` runs; when `_send_raw` raises at the first batch
(`raise_at = some 0`, nothing posted) the collected entry is no longer
present, so it is not retried by the next tick. -/
theorem c4_failure_counterexample :
    (check_and_send true false AddressReachability.reachable [] [deliveredEntry]
        (some 0)).sends = [] ∧
    (check_and_send true false AddressReachability.reachable [] [deliveredEntry]
        (some 0)).message_texts = ["delivered-text"] ∧
    (check_and_send true false AddressReachability.reachable [] [deliveredEntry]
        (some 0)).queue = [] :=
  ⟨rfl, rfl, rfl⟩

/-- Claim C4 (amended): a `_send_raw` failure removes nothing further —
the resulting buffer and collected texts are identical to those of a fully
successful tick — and every retryable entry still present in the
application's queue (in particular every collected retryable entry)
remains buffered so that the next tick retries it; non-retryable entries
are removed when collected regardless of the send outcome. -/
theorem c4_failure_semantics_amended (qmap : List (QueueIdentifier × List Nat))
    (message_queue : List MessageData) (raise_at : Option Nat) :
    ((check_and_send true false AddressReachability.reachable qmap message_queue
        raise_at).queue =
      (check_and_send true false AddressReachability.reachable qmap message_queue
        none).queue) ∧
    ((check_and_send true false AddressReachability.reachable qmap message_queue
        raise_at).message_texts =
      (check_and_send true false AddressReachability.reachable qmap message_queue
        none).message_texts) ∧
    (∀ d ∈ message_queue, is_transport_internal d.message = false →
      message_is_in_queue qmap d = true →
      ∃ d' ∈ (check_and_send true false AddressReachability.reachable qmap message_queue
          raise_at).queue,
        d'.queue_identifier = d.queue_identifier ∧ d'.message = d.message ∧
          d'.text = d.text) := by
  refine ⟨rfl, rfl, ?_⟩
  intro d hd hint hq
  exact ce_retryable_kept qmap message_queue d hd hint hq

/-- Witness for the amended C4 at a concrete queue whose retryable entry is
still pending in the application's queue, with `_send_raw` failing at the
first batch. -/
theorem c4_failure_semantics_amended_witness :
    ((check_and_send true false AddressReachability.reachable [(sampleQid, [11])]
        [sampleEntry] (some 0)).queue =
      (check_and_send true false AddressReachability.reachable [(sampleQid, [11])]
        [sampleEntry] none).queue) ∧
    (is_transport_internal sampleEntry.message = false) ∧
    (message_is_in_queue [(sampleQid, [11])] sampleEntry = true) ∧
    (∃ d' ∈ (check_and_send true false AddressReachability.reachable [(sampleQid, [11])]
        [sampleEntry] (some 0)).queue,
      d'.queue_identifier = sampleEntry.queue_identifier ∧
        d'.message = sampleEntry.message ∧ d'.text = sampleEntry.text) :=
  ⟨(c4_failure_semantics_amended [(sampleQid, [11])] [sampleEntry] (some 0)).1, rfl, rfl,
    (c4_failure_semantics_amended [(sampleQid, [11])] [sampleEntry] (some 0)).2.2 sampleEntry
      (List.mem_singleton.mpr rfl) rfl rfl⟩

/-- Claim C5 (counterexample to the claim as stated): a retryable entry
whose expiration generator is ready but whose queue identifier is no
longer among the application's queues is removed from the buffer without
its text being collected, contradicting "a retryable entry whose
expiration predicate is ready has its text collected but is not removed". -/
theorem c5_collection_counterexample :
    staleEntry.expiration_generator.outs staleEntry.expiration_generator.idx = true ∧
    is_transport_internal staleEntry.message = false ∧
    (check_and_send true false AddressReachability.reachable [] [staleEntry] none).queue
      = [] ∧
    (check_and_send true false AddressReachability.reachable [] [staleEntry]
        none).message_texts = [] :=
  ⟨rfl, rfl, rfl, rfl⟩

/-- Claim C5 (amended): during `check_and_send` (transport started, not
stopping, peer reachable) every buffered non-retryable entry has its text
collected and is removed (every kept entry is retryable and still queued);
a retryable entry still present in the application's queue whose expiration
predicate is ready has its text collected and is not removed; a retryable
entry no longer present in the application's queue is removed, and every
collected text stems from a non-retryable entry or from a still-queued
ready retryable entry. -/
theorem c5_collection_amended (qmap : List (QueueIdentifier × List Nat))
    (message_queue : List MessageData) (raise_at : Option Nat) :
    (∀ d ∈ message_queue, is_transport_internal d.message = true →
      d.text ∈ (check_and_send true false AddressReachability.reachable qmap message_queue
        raise_at).message_texts) ∧
    (∀ d' ∈ (check_and_send true false AddressReachability.reachable qmap message_queue
        raise_at).queue,
      is_transport_internal d'.message = false ∧ message_is_in_queue qmap d' = true) ∧
    (∀ d ∈ message_queue, is_transport_internal d.message = false →
      message_is_in_queue qmap d = true →
      d.expiration_generator.outs d.expiration_generator.idx = true →
      d.text ∈ (check_and_send true false AddressReachability.reachable qmap message_queue
          raise_at).message_texts ∧
        ∃ d' ∈ (check_and_send true false AddressReachability.reachable qmap message_queue
            raise_at).queue,
          d'.queue_identifier = d.queue_identifier ∧ d'.message = d.message ∧
            d'.text = d.text) ∧
    (∀ d ∈ message_queue, is_transport_internal d.message = false →
      message_is_in_queue qmap d = false →
      ∀ d' ∈ (check_and_send true false AddressReachability.reachable qmap message_queue
          raise_at).queue,
        ¬(d'.queue_identifier = d.queue_identifier ∧ d'.message = d.message)) ∧
    (∀ t ∈ (check_and_send true false AddressReachability.reachable qmap message_queue
        raise_at).message_texts,
      ∃ d ∈ message_queue, d.text = t ∧
        (is_transport_internal d.message = true ∨
          (message_is_in_queue qmap d = true ∧
            d.expiration_generator.outs d.expiration_generator.idx = true))) := by
  refine ⟨?_, ?_, ?_, ?_, ?_⟩
  · intro d hd hint
    exact ce_internal_collected qmap message_queue d hd hint
  · intro d' hd'
    exact ce_kept_shape qmap message_queue d' hd'
  · intro d hd hint hq hr
    exact ⟨ce_ready_collected qmap message_queue d hd hint hq hr,
      ce_retryable_kept qmap message_queue d hd hint hq⟩
  · intro d hd hint hq d' hd' hfields
    have hk := (ce_kept_shape qmap message_queue d' hd').2
    rw [message_is_in_queue_fields qmap d d' hfields.1 hfields.2, hq] at hk
    exact Bool.noConfusion hk
  · intro t ht
    exact ce_texts_source qmap message_queue t ht

/-- Witness for the amended C5: a buffered `Delivered` entry is collected
and removed while a still-queued ready retryable entry is collected and
kept. -/
theorem c5_collection_amended_witness :
    is_transport_internal deliveredEntry.message = true ∧
    deliveredEntry.text ∈ (check_and_send true false AddressReachability.reachable
      [(sampleQid, [11])] [sampleEntry, deliveredEntry] none).message_texts ∧
    is_transport_internal sampleEntry.message = false ∧
    message_is_in_queue [(sampleQid, [11])] sampleEntry = true ∧
    sampleEntry.expiration_generator.outs sampleEntry.expiration_generator.idx = true ∧
    (sampleEntry.text ∈ (check_and_send true false AddressReachability.reachable
        [(sampleQid, [11])] [sampleEntry, deliveredEntry] none).message_texts ∧
      ∃ d' ∈ (check_and_send true false AddressReachability.reachable
          [(sampleQid, [11])] [sampleEntry, deliveredEntry] none).queue,
        d'.queue_identifier = sampleEntry.queue_identifier ∧
          d'.message = sampleEntry.message ∧ d'.text = sampleEntry.text) :=
  ⟨rfl,
    (c5_collection_amended [(sampleQid, [11])] [sampleEntry, deliveredEntry] none).1
      deliveredEntry (List.mem_cons_of_mem _ (List.mem_cons_self _ _)) rfl,
    rfl, rfl, rfl,
    (c5_collection_amended [(sampleQid, [11])] [sampleEntry, deliveredEntry] none).2.2.1
      sampleEntry (List.mem_cons_self _ _) rfl rfl rfl⟩

end RaidenTransport
